import Mathlib

/-!
Shallow embedding of the cachestudy simulation engine, chiefly
src/cache_ttl_extension.py (the canonical variant) together with the backend
and resource usage of src/cache_stampede.py.  Simulated time is embedded as a
rational; the stochastic draws of the source (admission races, service
delays, the TTL-extension coin, wipe's per-key coins) become explicit oracle
arguments, which is faithful because the simulation is single-threaded
cooperative scheduling.
-/

namespace CacheStudy

/-- Simulated time, the value of env.now: a nonnegative real in the source,
embedded as a rational. -/
abbrev SimTime := ℚ

/-- A value stored in a KeyValueStorage dict is either an actual payload or
Python None (for example the absent marker written back for a key missing
from the database), hence an Option V. -/
abbrev PyVal (V : Type) := Option V

variable {V : Type}

/-- State of KeyValueStorage (cache_ttl_extension.py lines 93-132): the dicts
self values and self expires_at.  A key mapped to none is a key not in the
dict. -/
structure Store (V : Type) where
  values : Nat → Option (PyVal V)
  expires_at : Nat → Option SimTime

/-- KeyValueStorage construction: both dicts start empty. -/
def Store.empty : Store V where
  values := fun _ => none
  expires_at := fun _ => none

/-- KeyValueStorage.get (lines 103-109): None when the key is not in values,
None when expires_at of the key is strictly before now (expired), otherwise
the stored value.  A key in values but not in expires_at cannot arise from
the source operations (set fills both, delete keeps expires_at); Python would
raise KeyError there, the embedding returns None. -/
def Store.get (s : Store V) (now : SimTime) (key : Nat) : Option V :=
  match s.values key with
  | none => none
  | some pv =>
    match s.expires_at key with
    | none => none
    | some e => if e < now then none else pv

/-- KeyValueStorage.set (lines 111-115) with the ttl already resolved:
values gets the value and expires_at gets now + ttl.  The default ttl = None
of the source means SIMULATION_TIME + 1, which callers resolve. -/
def Store.set (s : Store V) (now : SimTime) (key : Nat) (v : PyVal V) (ttl : ℚ) :
    Store V where
  values := fun k => if k = key then some v else s.values k
  expires_at := fun k => if k = key then some (now + ttl) else s.expires_at k

/-- KeyValueStorage.ttl (lines 117-122): -2 when the key is not in
expires_at, -1 when expires_at of the key is strictly before now, otherwise
math.ceil of expires_at minus now. -/
def Store.ttl (s : Store V) (now : SimTime) (key : Nat) : Int :=
  match s.expires_at key with
  | none => -2
  | some e => if e < now then -1 else ⌈e - now⌉

/-- KeyValueStorage.delete (lines 124-125): del on values only; expires_at
keeps the key.  Python raises KeyError on a key not in values; the source
only deletes present keys. -/
def Store.delete (s : Store V) (key : Nat) : Store V where
  values := fun k => if k = key then none else s.values k
  expires_at := s.expires_at

/-- KeyValueStorage.wipe (lines 127-132): iterates a snapshot of the keys of
values and deletes each, from both dicts, when its coin flip
random.random() < part comes up true; sel gives those flips.  Keys not
currently in values are not visited. -/
def Store.wipe (s : Store V) (sel : Nat → Bool) : Store V where
  values := fun k => if sel k ∧ (s.values k).isSome then none else s.values k
  expires_at := fun k => if sel k ∧ (s.values k).isSome then none else s.expires_at k

/-- One direct store operation of a history: set carries the optional ttl of
the source (none meaning SIMULATION_TIME + 1), wipe carries its coin
flips. -/
inductive Op (V : Type) where
  | set (key : Nat) (v : PyVal V) (ttl : Option ℚ)
  | del (key : Nat)
  | wipe (sel : Nat → Bool)

/-- Applies one timestamped operation, resolving the default ttl exactly as
KeyValueStorage.set does (simT stands for args.SIMULATION_TIME). -/
def applyOp (simT : ℚ) (s : Store V) : SimTime × Op V → Store V
  | (now, .set key v ttl) => s.set now key v (ttl.getD (simT + 1))
  | (_, .del key) => s.delete key
  | (_, .wipe sel) => s.wipe sel

/-- Runs a timestamped operation history left to right, oldest first. -/
def exec (simT : ℚ) (s : Store V) (tr : List (SimTime × Op V)) : Store V :=
  tr.foldl (applyOp simT) s

/-- One step of the specification-side view of a history at one key: a set of
the key installs its value and expiration, a delete or a wipe whose coin
selected the key removes it. -/
def lastLiveStep (simT : ℚ) (key : Nat) (acc : Option (PyVal V × SimTime))
    (p : SimTime × Op V) : Option (PyVal V × SimTime) :=
  match p.2 with
  | .set k v ttl => if k = key then some (v, p.1 + (ttl.getD (simT + 1))) else acc
  | .del k => if k = key then none else acc
  | .wipe sel => if sel key then none else acc

/-- Modelled from the claim's words (C2): the key's most recent set not
followed by a delete of the key or a wipe that removed it, as the stored
value and its expiration timestamp. -/
def lastLiveSet (simT : ℚ) (tr : List (SimTime × Op V)) (key : Nat) :
    Option (PyVal V × SimTime) :=
  tr.foldl (lastLiveStep simT key) none

/-- Modelled from the claim's words (C2 as stated): get returns the value iff
the key was set with an expiration strictly greater than t and not
subsequently deleted. -/
def specGetStrict (simT : ℚ) (tr : List (SimTime × Op V)) (key : Nat) (t : SimTime) :
    Option V :=
  match lastLiveSet simT tr key with
  | none => none
  | some (pv, e) => if t < e then pv else none

/-- The actual boundary of the source: the surviving set still reads back
while its expiration is greater than or equal to t. -/
def specGetLax (simT : ℚ) (tr : List (SimTime × Op V)) (key : Nat) (t : SimTime) :
    Option V :=
  match lastLiveSet simT tr key with
  | none => none
  | some (pv, e) => if t ≤ e then pv else none

/-- Invariant tying the executed store at one key to the specification-side
accumulator: same presence, and when present, same stored value and same
expiration timestamp. -/
def StoreInv (s : Store V) (key : Nat) (acc : Option (PyVal V × SimTime)) : Prop :=
  match acc with
  | none => s.values key = none
  | some (pv, e) => s.values key = some pv ∧ s.expires_at key = some e

/-- State of a simpy Resource as the source uses it: capacity concurrent
slots, the users list of granted requests and the put_queue of pending
admission requests, requests identified by ids.  Mirrors
simpy.resources.resource.Resource over simpy.resources.base.BaseResource,
the library both variants subclass. -/
structure SimResource where
  capacity : Nat
  users : List Nat
  queue : List Nat

/-- BaseResource trigger of pending puts for a Resource: the front of the
put_queue is granted a slot when fewer than capacity users hold one; the
Resource do_put hook returns None, so each trigger examines exactly one
queue entry. -/
def SimResource.triggerPut (r : SimResource) : SimResource :=
  match r.queue with
  | [] => r
  | rid :: rest =>
    if r.users.length < r.capacity then
      { r with users := r.users ++ [rid], queue := rest }
    else r

/-- Resource.request: the new request is appended to the put_queue and the
put trigger runs once. -/
def SimResource.request (r : SimResource) (rid : Nat) : SimResource :=
  SimResource.triggerPut { r with queue := r.queue ++ [rid] }

/-- Resource.release on a request: the do_get hook removes the request from
users when it is there (try, except ValueError, pass), then the Release
event's callback runs the put trigger once.  A pending request stays in the
put_queue: only Put.cancel, which neither variant ever calls, dequeues an
untriggered request. -/
def SimResource.release (r : SimResource) (rid : Nat) : SimResource :=
  SimResource.triggerPut { r with users := r.users.erase rid }

/-- Response (cache_ttl_extension.py lines 62-78): Success carrying a value,
or Error carrying a message, with is_ok true exactly for Success. -/
inductive Response (α : Type) where
  | success (val : α)
  | error (msg : String)

/-- Outcome of one admission race, yield req or env.timeout, together with
the sampled service delay: the oracle for one process_get or process_set
call.  granted carries the time spent waiting for the slot and the sampled
response delay. -/
inductive Admit where
  | timeout
  | granted (wait delay : ℚ)

/-- KeyValueStorage.process_get (lines 134-145): on an admission timeout the
call returns Error Timeout exactly timeout units after entry and never
touches the store; when granted, after the admission wait and the service
delay it evaluates get at the then-current clock and returns Success.  Slot
bookkeeping is the SimResource model; this is the store effect and the
timing. -/
def processGet (s : Store V) (tmo : ℚ) (a : Admit) (now : SimTime) (key : Nat) :
    Response (Option V) × SimTime :=
  match a with
  | .timeout => (.error "Timeout", now + tmo)
  | .granted w d => (.success (s.get (now + w + d) key), now + w + d)

/-- KeyValueStorage.process_set (lines 147-158), same shape as process_get:
on an admission timeout the store is untouched; when granted, set runs at the
then-current clock. -/
def processSet (s : Store V) (tmo : ℚ) (a : Admit) (now : SimTime) (key : Nat)
    (v : PyVal V) (ttl : ℚ) : Store V × Response Unit × SimTime :=
  match a with
  | .timeout => (s, .error "Timeout", now + tmo)
  | .granted w d => (s.set (now + w + d) key v ttl, .success (), now + w + d)

/-- One row of Stats.add_data (lines 58-60): timestamp of arrival, outcome
tag, response time, key. -/
structure Row where
  timestamp : SimTime
  tag : String
  response_time : ℚ
  key : Nat

/-- Nondeterminism of one cache_ttl_extension.py backend run, resolved up
front: the admission races and service delays of its up to three resource
calls, and the TTL-extension coin random.random() < args.CACHE_TTL_EXT_PROB. -/
structure Oracle where
  cacheGet : Admit
  ttlCoin : Bool
  extDbGet : Admit
  extCacheSet : Admit
  dbGet : Admit
  cacheSet : Admit

/-- Configuration the backend reads from args. -/
structure Params where
  cacheTimeout : ℚ
  dbTimeout : ℚ
  keyCacheTtl : ℚ

/-- Everything one backend run produces or mutates: the returned value, the
increments of stats.ok and stats.fails, the rows appended to stats.data, the
cache store afterwards, how many database process_get calls were made, and
env.now when the run returns. -/
structure BackendOut (V : Type) where
  ret : Option V
  okInc : Nat
  failsInc : Nat
  rows : List Row
  cache : Store V
  dbReads : Nat
  endTime : SimTime

/-- The backend of cache_ttl_extension.py (lines 161-202), one request for
key arriving at t0, as a function of its oracle: cache read; on a hit, ok is
counted and with the coin the TTL extension runs, its row recorded before
the extension work; on a cache error the request fast-fails with a
cache_fail row and neither counter; on a miss, database read, then cache
write-back whose outcome is ignored. -/
def backend (p : Params) (cache db : Store V) (key : Nat) (t0 : SimTime) (o : Oracle) :
    BackendOut V :=
  match processGet cache p.cacheTimeout o.cacheGet t0 key with
  | (.success (some v), t1) =>
    if o.ttlCoin then
      if 0 < cache.ttl t1 key then
        match processGet db p.dbTimeout o.extDbGet t1 key with
        | (.success dv, t2) =>
          match processSet cache p.cacheTimeout o.extCacheSet t2 key dv p.keyCacheTtl with
          | (c2, _, t3) =>
            ⟨some v, 1, 0, [⟨t0, "cache_hit;cache_ttl_ext", t1 - t0, key⟩], c2, 1, t3⟩
        | (.error _, t2) =>
          ⟨some v, 1, 0, [⟨t0, "cache_hit;cache_ttl_ext", t1 - t0, key⟩], cache, 1, t2⟩
      else ⟨some v, 1, 0, [⟨t0, "cache_hit;cache_ttl_ext", t1 - t0, key⟩], cache, 0, t1⟩
    else ⟨some v, 1, 0, [⟨t0, "cache_hit", t1 - t0, key⟩], cache, 0, t1⟩
  | (.error _, t1) => ⟨none, 0, 0, [⟨t0, "cache_fail", t1 - t0, key⟩], cache, 0, t1⟩
  | (.success none, t1) =>
    match processGet db p.dbTimeout o.dbGet t1 key with
    | (.error _, t2) => ⟨none, 0, 1, [⟨t0, "cache_miss;db_fail", t2 - t0, key⟩], cache, 1, t2⟩
    | (.success dv, t2) =>
      match processSet cache p.cacheTimeout o.cacheSet t2 key dv p.keyCacheTtl with
      | (c2, _, t3) => ⟨dv, 1, 0, [⟨t0, "cache_miss;db_ok", t3 - t0, key⟩], c2, 1, t3⟩

/-- Nondeterminism of one cache_stampede.py backend run (lines 116-133). -/
structure StampedeOracle where
  cacheGet : Admit
  dbGet : Admit
  cacheSet : Admit

/-- Result of one cache_stampede.py backend run; that variant records no
per-request rows. -/
structure StampedeOut (V : Type) where
  ret : Option V
  okInc : Nat
  failsInc : Nat
  cache : Store V
  dbReads : Nat
  endTime : SimTime

/-- The backend of cache_stampede.py (lines 116-133): only a hit short
circuits; a cache read that is not a hit, an Error Timeout included, falls
through to the database read and, on database success, the cache
write-back. -/
def backendStampede (p : Params) (cache db : Store V) (key : Nat) (t0 : SimTime)
    (o : StampedeOracle) : StampedeOut V :=
  match processGet cache p.cacheTimeout o.cacheGet t0 key with
  | (.success (some v), t1) => ⟨some v, 1, 0, cache, 0, t1⟩
  | (_, t1) =>
    match processGet db p.dbTimeout o.dbGet t1 key with
    | (.error _, t2) => ⟨none, 0, 1, cache, 1, t2⟩
    | (.success dv, t2) =>
      match processSet cache p.cacheTimeout o.cacheSet t2 key dv p.keyCacheTtl with
      | (c2, _, t3) => ⟨dv, 1, 0, c2, 1, t3⟩

theorem Store.get_of_values_none (s : Store V) (now : SimTime) (key : Nat)
    (h : s.values key = none) : s.get now key = none := by
  simp [Store.get, h]

theorem Store.get_of_values_some_none (s : Store V) (now : SimTime) (key : Nat)
    (h : s.values key = some none) : s.get now key = none := by
  unfold Store.get
  rw [h]
  cases hx : s.expires_at key <;> simp

/-- C8: set of key, v, ttl immediately followed by get of the key at the same
simulated time returns v, for any positive ttl (KeyValueStorage.set lines
111-115 and KeyValueStorage.get lines 103-109): the fresh expiration
now + ttl is not strictly before now. -/
theorem set_get_roundtrip (V : Type) (s : Store V) (now : SimTime) (key : Nat) (v : V)
    (ttl : ℚ) (h : 0 < ttl) : (s.set now key (some v) ttl).get now key = some v := by
  have h1 : ¬ now + ttl < now := by linarith
  simp [Store.get, Store.set, h1]

/-- Witness for C8: a concrete set at time 3 with ttl 7 read back at time 3. -/
theorem set_get_roundtrip_witness :
    ((Store.empty : Store Nat).set 3 5 (some 42) 7).get 3 5 = some 42 :=
  set_get_roundtrip Nat Store.empty 3 5 42 7 (by norm_num)

/-- C5 (amended): the three-way result of KeyValueStorage.ttl (lines
117-122): the NotFound marker -2 for a key not in expires_at (in particular
a never-set key), the Expired marker -1 when expires_at is strictly before
now, and otherwise the ceiling of expires_at minus now: a nonnegative
duration, positive when expires_at is strictly after now but zero, not
Expired and not positive, at the boundary now equal to expires_at. -/
theorem ttl_three_way (V : Type) (s : Store V) (now : SimTime) (key : Nat) :
    (s.expires_at key = none → s.ttl now key = -2) ∧
    (∀ e, s.expires_at key = some e → e < now → s.ttl now key = -1) ∧
    (∀ e, s.expires_at key = some e → now ≤ e →
      s.ttl now key = ⌈e - now⌉ ∧ 0 ≤ s.ttl now key ∧
      (now < e → 0 < s.ttl now key) ∧ (e = now → s.ttl now key = 0)) := by
  refine ⟨fun h => by simp [Store.ttl, h], fun e he hlt => by simp [Store.ttl, he, hlt],
    fun e he hle => ?_⟩
  have hnot : ¬ e < now := not_lt.mpr hle
  have hv : s.ttl now key = ⌈e - now⌉ := by simp [Store.ttl, he, hnot]
  refine ⟨hv, ?_, ?_, ?_⟩
  · rw [hv]
    exact Int.ceil_nonneg (by linarith)
  · intro hlt
    rw [hv]
    exact Int.ceil_pos.mpr (by linarith)
  · intro heq
    rw [hv, heq]
    simp

/-- C5 counterexample: an entry set at time 0 with ttl 5, queried at now = 5,
yields 0, which is neither the Expired marker nor a positive duration; and
an entry with remaining duration three halves, queried at now = 0, yields the
ceiling 2, not the exact difference expires_at minus now. -/
theorem ttl_boundary_cex :
    ((Store.empty : Store Nat).set 0 0 (some 7) 5).ttl 5 0 = 0 ∧
    ((Store.empty : Store Nat).set 0 0 (some 7) (3/2)).ttl 0 0 = 2 := by
  constructor
  · unfold Store.ttl Store.set
    norm_num
  · unfold Store.ttl Store.set
    norm_num
    rw [Int.ceil_eq_iff]
    norm_num

/-- C9: after set then delete, get returns absent, but ttl does not return
the NotFound marker -2: KeyValueStorage.delete (lines 124-125) removes the
key from values only and keeps expires_at, so ttl answers exactly as before
the delete (the remaining duration, or the Expired marker); wipe (lines
127-132), whose coin selected the key, removes both dicts' entries, after
which ttl returns -2 and get absent. -/
theorem delete_keeps_expiry (V : Type) (s : Store V) (tau now : SimTime) (key : Nat)
    (v : PyVal V) (ttl : ℚ) (sel : Nat → Bool) (hsel : sel key = true) :
    (((s.set tau key v ttl).delete key).get now key = none) ∧
    (((s.set tau key v ttl).delete key).ttl now key = (s.set tau key v ttl).ttl now key) ∧
    (((s.set tau key v ttl).delete key).ttl now key ≠ -2) ∧
    ((s.set tau key v ttl).wipe sel).values key = none ∧
    ((s.set tau key v ttl).wipe sel).expires_at key = none ∧
    ((s.set tau key v ttl).wipe sel).ttl now key = -2 ∧
    ((s.set tau key v ttl).wipe sel).get now key = none := by
  have hval : ((s.set tau key v ttl).values key).isSome = true := by
    simp [Store.set]
  refine ⟨?_, ?_, ?_, ?_, ?_, ?_, ?_⟩
  · simp [Store.get, Store.delete]
  · simp [Store.ttl, Store.delete]
  · by_cases hc : tau + ttl < now
    · simp [Store.ttl, Store.delete, Store.set, hc]
    · have h0 : (0:ℤ) ≤ ⌈tau + ttl - now⌉ :=
        Int.ceil_nonneg (show (0:ℚ) ≤ tau + ttl - now by linarith [not_lt.mp hc])
      simp [Store.ttl, Store.delete, Store.set, hc]
      omega
  · simp [Store.wipe, hsel, hval]
  · simp [Store.wipe, hsel, hval]
  · simp [Store.ttl, Store.wipe, hsel, hval]
  · simp [Store.get, Store.wipe, hsel, hval]

/-- Witness for C9 at a concrete store, key and wipe selection. -/
theorem delete_keeps_expiry_witness :
    ((((Store.empty : Store Nat).set 0 4 (some 9) 10).delete 4).get 6 4 = none) ∧
    ((((Store.empty : Store Nat).set 0 4 (some 9) 10).delete 4).ttl 6 4 =
      ((Store.empty : Store Nat).set 0 4 (some 9) 10).ttl 6 4) ∧
    ((((Store.empty : Store Nat).set 0 4 (some 9) 10).delete 4).ttl 6 4 ≠ -2) ∧
    (((Store.empty : Store Nat).set 0 4 (some 9) 10).wipe (fun _ => true)).values 4 = none ∧
    (((Store.empty : Store Nat).set 0 4 (some 9) 10).wipe (fun _ => true)).expires_at 4 = none ∧
    (((Store.empty : Store Nat).set 0 4 (some 9) 10).wipe (fun _ => true)).ttl 6 4 = -2 ∧
    (((Store.empty : Store Nat).set 0 4 (some 9) 10).wipe (fun _ => true)).get 6 4 = none :=
  delete_keeps_expiry Nat Store.empty 0 6 4 (some 9) 10 (fun _ => true) rfl

/-- C1 at the failing input, evaluated on the embedded simpy Resource
semantics: a capacity-1 resource grants request 1; request 2 queues; request
2's admission times out and its process calls release on the pending request
(cache_ttl_extension.py line 139; cache_stampede.py lines 94-96 call nothing
there, leaving the same state), which does not dequeue it; request 1 then
releases.  The abandoned request 2 is granted the freed slot and is never
released, so a fresh request 3 queues instead of being admitted: after the
timed-out admission the capacity-1 resource accepts 0, not 1, new
admissions, a leaked slot. -/
theorem timedOutAdmission_leaks_slot :
    ((((SimResource.mk 1 [] []).request 1).request 2).release 2).release 1 =
      SimResource.mk 1 [2] [] ∧
    (((((SimResource.mk 1 [] []).request 1).request 2).release 2).release 1).request 3 =
      SimResource.mk 1 [2] [3] := ⟨rfl, rfl⟩

/-- C3 counterexample: a run whose cache read times out records exactly one
row, tagged cache_fail, and increments neither ok nor fails, so the sum of
the two counters falls short of the number of recorded outcomes. -/
theorem cacheFail_counts_neither_cex :
    (backend ⟨100, 1000, 60000⟩ (Store.empty : Store Nat) Store.empty 0 0
        ⟨Admit.timeout, false, Admit.timeout, Admit.timeout, Admit.timeout,
          Admit.timeout⟩).okInc = 0 ∧
    (backend ⟨100, 1000, 60000⟩ (Store.empty : Store Nat) Store.empty 0 0
        ⟨Admit.timeout, false, Admit.timeout, Admit.timeout, Admit.timeout,
          Admit.timeout⟩).failsInc = 0 ∧
    (backend ⟨100, 1000, 60000⟩ (Store.empty : Store Nat) Store.empty 0 0
        ⟨Admit.timeout, false, Admit.timeout, Admit.timeout, Admit.timeout,
          Admit.timeout⟩).rows.map Row.tag = ["cache_fail"] := ⟨rfl, rfl, rfl⟩

/-- C4 counterexample: in the cache_stampede.py backend a cache read that
fails with Timeout does not terminate the request: the database is consulted
(one database process_get call happens). -/
theorem stampede_consults_db_cex :
    (backendStampede ⟨100, 1000, 60000⟩ (Store.empty : Store Nat) Store.empty 0 0
      ⟨Admit.timeout, Admit.granted 0 100, Admit.granted 0 10⟩).dbReads = 1 := rfl

theorem storeInv_applyOp (simT : ℚ) (key : Nat) (s : Store V)
    (acc : Option (PyVal V × SimTime)) (p : SimTime × Op V) (h : StoreInv s key acc) :
    StoreInv (applyOp simT s p) key (lastLiveStep simT key acc p) := by
  obtain ⟨t, op⟩ := p
  cases op with
  | set k v ttl =>
    by_cases hk : k = key
    · subst hk
      simp [applyOp, lastLiveStep, StoreInv, Store.set]
    · cases acc with
      | none =>
        simp only [StoreInv] at h ⊢
        simp [applyOp, lastLiveStep, hk, Store.set, Ne.symm hk, h]
      | some pe =>
        obtain ⟨pv, e⟩ := pe
        simp only [StoreInv] at h ⊢
        simp [applyOp, lastLiveStep, hk, Store.set, Ne.symm hk, h.1, h.2]
  | del k =>
    by_cases hk : k = key
    · subst hk
      simp [applyOp, lastLiveStep, StoreInv, Store.delete]
    · cases acc with
      | none =>
        simp only [StoreInv] at h ⊢
        simp [applyOp, lastLiveStep, hk, Store.delete, Ne.symm hk, h]
      | some pe =>
        obtain ⟨pv, e⟩ := pe
        simp only [StoreInv] at h ⊢
        simp [applyOp, lastLiveStep, hk, Store.delete, Ne.symm hk, h.1, h.2]
  | wipe sel =>
    cases acc with
    | none =>
      simp only [StoreInv] at h ⊢
      by_cases hs : sel key = true <;> simp [applyOp, lastLiveStep, hs, Store.wipe, h]
    | some pe =>
      obtain ⟨pv, e⟩ := pe
      simp only [StoreInv] at h ⊢
      by_cases hs : sel key = true <;>
        simp [applyOp, lastLiveStep, hs, Store.wipe, h.1, h.2]

theorem storeInv_foldl (simT : ℚ) (key : Nat) (tr : List (SimTime × Op V)) :
    ∀ (s : Store V) (acc : Option (PyVal V × SimTime)), StoreInv s key acc →
      StoreInv (tr.foldl (applyOp simT) s) key (tr.foldl (lastLiveStep simT key) acc) := by
  induction tr with
  | nil => intro s acc h; simpa using h
  | cons p rest ih =>
    intro s acc h
    simp only [List.foldl_cons]
    exact ih _ _ (storeInv_applyOp simT key s acc p h)

theorem get_eq_specGetLax (simT : ℚ) (tr : List (SimTime × Op V)) (key : Nat) (t : SimTime) :
    (exec simT Store.empty tr).get t key = specGetLax simT tr key t := by
  have h := storeInv_foldl simT key tr Store.empty none (by simp [StoreInv, Store.empty])
  cases hacc : lastLiveSet simT tr key with
  | none =>
    rw [lastLiveSet] at hacc
    rw [hacc] at h
    simp only [StoreInv] at h
    rw [specGetLax, lastLiveSet, hacc]
    exact Store.get_of_values_none _ t key h
  | some pe =>
    obtain ⟨pv, e⟩ := pe
    rw [lastLiveSet] at hacc
    rw [hacc] at h
    simp only [StoreInv] at h
    rw [specGetLax, lastLiveSet, hacc]
    unfold Store.get exec
    rw [h.1, h.2]
    dsimp only
    by_cases hle : t ≤ e
    · rw [if_neg (show ¬ e < t by linarith), if_pos hle]
    · rw [if_pos (show e < t from not_le.mp hle), if_neg hle]

/-- C2 (amended): over any history of set, delete and wipe operations, get at
time t returns exactly the value of the key's most recent set not
subsequently removed by a delete or a wipe, provided the set's expiration is
greater than OR EQUAL to t: the entry is live while expires_at is at least
now, and reads absent only once now is strictly past expires_at, so at
now = expires_at the value is still returned; and within process_get, now is
evaluated at the store call, after the admission wait and the service delay,
not at slot-admission time. -/
theorem get_matches_history (V : Type) (simT : ℚ) (tr : List (SimTime × Op V)) (key : Nat)
    (t : SimTime) :
    (exec simT Store.empty tr).get t key = specGetLax simT tr key t ∧
    (∀ (s : Store V) (tmo w d : ℚ) (now : SimTime) (k : Nat),
      processGet s tmo (Admit.granted w d) now k =
        (Response.success (s.get (now + w + d) k), now + w + d)) :=
  ⟨get_eq_specGetLax simT tr key t, fun _ _ _ _ _ _ => rfl⟩

/-- C2 counterexample: a key set at time 0 with ttl 5 and read at t = 5, when
now equals expires_at: the source still returns the value, whereas the claim
as stated (a value iff set with expiration strictly greater than t; absent
whenever now is at least expires_at) says absent. -/
theorem get_at_expiry_boundary_cex :
    (exec 3600000 (Store.empty : Store Nat) [(0, Op.set 0 (some 42) (some 5))]).get 5 0 =
      some 42 ∧
    specGetStrict 3600000 [(0, Op.set 0 (some 42) (some 5))] 0 5 = none := by
  constructor
  · norm_num [exec, applyOp, Store.set, Store.get, Store.empty]
  · norm_num [specGetStrict, lastLiveSet, lastLiveStep]

/-- C4 (amended): in the cache_ttl_extension.py backend a cache read failing
with Timeout terminates the request: one cache_fail row, None returned and no
database call at all; in the cache_stampede.py backend the same Timeout
instead falls through like a miss, and the database is always consulted
(exactly one database process_get call). -/
theorem cacheTimeout_fastFail_vs_stampede (V : Type) (p : Params) (cache db : Store V)
    (key : Nat) (t0 : SimTime) (o : Oracle) (so : StampedeOracle)
    (h : o.cacheGet = Admit.timeout) (hs : so.cacheGet = Admit.timeout) :
    (backend p cache db key t0 o).ret = none ∧
    (backend p cache db key t0 o).rows.map Row.tag = ["cache_fail"] ∧
    (backend p cache db key t0 o).dbReads = 0 ∧
    (backendStampede p cache db key t0 so).dbReads = 1 := by
  unfold backend backendStampede
  rw [h, hs]
  refine ⟨rfl, rfl, rfl, ?_⟩
  cases hd : so.dbGet with
  | timeout => rfl
  | granted w2 d2 =>
    cases hc : so.cacheSet with
    | timeout => rfl
    | granted w3 d3 => rfl

/-- Witness for C4: both backends run with a timed-out cache read. -/
theorem cacheTimeout_fastFail_witness :
    (backend ⟨100, 1000, 60000⟩ (Store.empty : Store Nat) Store.empty 0 0
        ⟨Admit.timeout, true, Admit.timeout, Admit.timeout, Admit.timeout,
          Admit.timeout⟩).dbReads = 0 ∧
    (backendStampede ⟨100, 1000, 60000⟩ (Store.empty : Store Nat) Store.empty 0 0
        ⟨Admit.timeout, Admit.timeout, Admit.timeout⟩).dbReads = 1 := by
  have h := cacheTimeout_fastFail_vs_stampede Nat ⟨100, 1000, 60000⟩ Store.empty
    Store.empty 0 0
    ⟨Admit.timeout, true, Admit.timeout, Admit.timeout, Admit.timeout, Admit.timeout⟩
    ⟨Admit.timeout, Admit.timeout, Admit.timeout⟩ rfl rfl
  exact ⟨h.2.2.1, h.2.2.2⟩

/-- C3 (amended): every terminal path of the cache_ttl_extension.py backend
records exactly one row, carrying the arrival timestamp and the key; the hit
and database paths increment exactly one of ok and fails, while the
cache_fail path increments neither, so ok plus fails equals the number of
recorded outcomes minus the number of cache_fail rows; and the recorded
response time is completion time minus arrival time on every path except the
TTL-extension path, whose row is recorded at the hit, before the extension's
database re-read and cache rewrite. -/
theorem backend_one_row_per_path (V : Type) (p : Params) (cache db : Store V)
    (key : Nat) (t0 : SimTime) (o : Oracle) :
    ∃ r : Row,
      (backend p cache db key t0 o).rows = [r] ∧ r.timestamp = t0 ∧ r.key = key ∧
      (backend p cache db key t0 o).okInc + (backend p cache db key t0 o).failsInc =
        (if r.tag = "cache_fail" then 0 else 1) ∧
      (r.tag ≠ "cache_hit;cache_ttl_ext" →
        r.response_time = (backend p cache db key t0 o).endTime - t0) := by
  unfold backend
  cases hcg : o.cacheGet with
  | timeout =>
    refine ⟨_, rfl, rfl, rfl, ?_, ?_⟩
    · simp [processGet, processSet]
    · intro _; rfl
  | granted w d =>
    simp only [processGet]
    cases hv : cache.get (t0 + w + d) key with
    | none =>
      cases hdb : o.dbGet with
      | timeout =>
        refine ⟨_, rfl, rfl, rfl, ?_, ?_⟩
        · simp [processGet, processSet]
        · intro _; rfl
      | granted w2 d2 =>
        simp only [processGet]
        cases hcs : o.cacheSet with
        | timeout =>
          refine ⟨_, rfl, rfl, rfl, ?_, ?_⟩
          · simp [processGet, processSet]
          · intro _; rfl
        | granted w3 d3 =>
          refine ⟨_, rfl, rfl, rfl, ?_, ?_⟩
          · simp [processGet, processSet]
          · intro _; rfl
    | some v =>
      cases hcoin : o.ttlCoin with
      | false =>
        refine ⟨_, rfl, rfl, rfl, ?_, ?_⟩
        · simp [processGet, processSet]
        · intro _; rfl
      | true =>
        by_cases ht : 0 < cache.ttl (t0 + w + d) key
        · simp only [if_pos ht, if_pos rfl]
          cases hedb : o.extDbGet with
          | timeout =>
            refine ⟨_, rfl, rfl, rfl, ?_, ?_⟩
            · simp [processGet, processSet]
            · intro hne; exact absurd rfl hne
          | granted w2 d2 =>
            simp only [processGet]
            cases hecs : o.extCacheSet with
            | timeout =>
              refine ⟨_, rfl, rfl, rfl, ?_, ?_⟩
              · simp [processGet, processSet]
              · intro hne; exact absurd rfl hne
            | granted w3 d3 =>
              refine ⟨_, rfl, rfl, rfl, ?_, ?_⟩
              · simp [processGet, processSet]
              · intro hne; exact absurd rfl hne
        · simp only [if_neg ht, if_pos rfl]
          refine ⟨_, rfl, rfl, rfl, ?_, ?_⟩
          · simp [processGet, processSet]
          · intro hne; exact absurd rfl hne

/-- C6: a cache miss whose database read is admitted: the backend returns the
database value (the absent marker included) as the request's result, counts
ok, records one cache_miss with db_ok row, and issues the write-back with the
configured default TTL args.KEY_CACHE_TTL; when the write-back admission
times out the cache is exactly unchanged (unrepopulated for the key), the
database value still returned and the request still counted ok; when it is
admitted the cache is rewritten at the key with that TTL. -/
theorem miss_dbOk_writeback (V : Type) (p : Params) (cache db : Store V) (key : Nat)
    (t0 : SimTime) (o : Oracle) (w d w2 d2 : ℚ)
    (hcg : o.cacheGet = Admit.granted w d)
    (hmiss : cache.get (t0 + w + d) key = none)
    (hdb : o.dbGet = Admit.granted w2 d2) :
    (backend p cache db key t0 o).ret = db.get (t0 + w + d + w2 + d2) key ∧
    (backend p cache db key t0 o).okInc = 1 ∧
    (backend p cache db key t0 o).failsInc = 0 ∧
    (backend p cache db key t0 o).rows.map Row.tag = ["cache_miss;db_ok"] ∧
    (o.cacheSet = Admit.timeout → (backend p cache db key t0 o).cache = cache) ∧
    (∀ w3 d3, o.cacheSet = Admit.granted w3 d3 →
      (backend p cache db key t0 o).cache =
        cache.set (t0 + w + d + w2 + d2 + w3 + d3) key (db.get (t0 + w + d + w2 + d2) key)
          p.keyCacheTtl) := by
  cases hcs : o.cacheSet with
  | timeout =>
    have hrun : backend p cache db key t0 o =
        ⟨db.get (t0 + w + d + w2 + d2) key, 1, 0,
          [⟨t0, "cache_miss;db_ok", t0 + w + d + w2 + d2 + p.cacheTimeout - t0, key⟩],
          cache, 1, t0 + w + d + w2 + d2 + p.cacheTimeout⟩ := by
      unfold backend
      rw [hcg, hdb, hcs]
      simp only [processGet, processSet, hmiss]
    rw [hrun]
    exact ⟨rfl, rfl, rfl, rfl, fun _ => rfl, fun w3 d3 hc => Admit.noConfusion hc⟩
  | granted w3 d3 =>
    have hrun : backend p cache db key t0 o =
        ⟨db.get (t0 + w + d + w2 + d2) key, 1, 0,
          [⟨t0, "cache_miss;db_ok", t0 + w + d + w2 + d2 + w3 + d3 - t0, key⟩],
          cache.set (t0 + w + d + w2 + d2 + w3 + d3) key
            (db.get (t0 + w + d + w2 + d2) key) p.keyCacheTtl,
          1, t0 + w + d + w2 + d2 + w3 + d3⟩ := by
      unfold backend
      rw [hcg, hdb, hcs]
      simp only [processGet, processSet, hmiss]
    rw [hrun]
    refine ⟨rfl, rfl, rfl, rfl, fun hc => Admit.noConfusion hc, ?_⟩
    intro w3' d3' hc
    injection hc with h1 h2
    subst h1
    subst h2
    rfl

/-- Witness for C6: a concrete admitted miss against an empty cache and an
empty database, with the write-back timing out. -/
theorem miss_dbOk_writeback_witness :
    (backend ⟨100, 1000, 777⟩ (Store.empty : Store Nat) Store.empty 9 0
        ⟨Admit.granted 1 2, false, Admit.timeout, Admit.timeout, Admit.granted 3 4,
          Admit.timeout⟩).okInc = 1 :=
  (miss_dbOk_writeback Nat ⟨100, 1000, 777⟩ Store.empty Store.empty 9 0
    ⟨Admit.granted 1 2, false, Admit.timeout, Admit.timeout, Admit.granted 3 4,
      Admit.timeout⟩ 1 2 3 4 rfl rfl rfl).2.1

/-- C7 (amended): on an admitted cache hit the backend always returns the
originally cached value; with the extension coin it records the
cache_hit with cache_ttl_ext row and checks the remaining TTL: when that is
not positive nothing else happens; when positive it re-reads the key from
the database (exactly one database call), and on database success attempts
the cache rewrite with the full fresh TTL args.KEY_CACHE_TTL — the entry is
rewritten when that write is admitted, while a timed-out extension database
read or a timed-out cache write leaves the cache unchanged. -/
theorem ttlExt_hit_behavior (V : Type) (p : Params) (cache db : Store V) (key : Nat)
    (t0 : SimTime) (o : Oracle) (w d : ℚ) (v : V)
    (hcg : o.cacheGet = Admit.granted w d)
    (hhit : cache.get (t0 + w + d) key = some v) :
    (backend p cache db key t0 o).ret = some v ∧
    (o.ttlCoin = false →
      (backend p cache db key t0 o).rows.map Row.tag = ["cache_hit"] ∧
      (backend p cache db key t0 o).cache = cache ∧
      (backend p cache db key t0 o).dbReads = 0) ∧
    (o.ttlCoin = true →
      (backend p cache db key t0 o).rows.map Row.tag = ["cache_hit;cache_ttl_ext"] ∧
      (cache.ttl (t0 + w + d) key ≤ 0 →
        (backend p cache db key t0 o).cache = cache ∧
        (backend p cache db key t0 o).dbReads = 0) ∧
      (0 < cache.ttl (t0 + w + d) key →
        (backend p cache db key t0 o).dbReads = 1 ∧
        (∀ w2 d2 w3 d3, o.extDbGet = Admit.granted w2 d2 →
          o.extCacheSet = Admit.granted w3 d3 →
          (backend p cache db key t0 o).cache =
            cache.set (t0 + w + d + w2 + d2 + w3 + d3) key
              (db.get (t0 + w + d + w2 + d2) key) p.keyCacheTtl) ∧
        (o.extDbGet = Admit.timeout → (backend p cache db key t0 o).cache = cache) ∧
        (∀ w2 d2, o.extDbGet = Admit.granted w2 d2 → o.extCacheSet = Admit.timeout →
          (backend p cache db key t0 o).cache = cache))) := by
  cases hcoin : o.ttlCoin with
  | false =>
    have hrun : backend p cache db key t0 o =
        ⟨some v, 1, 0, [⟨t0, "cache_hit", t0 + w + d - t0, key⟩], cache, 0, t0 + w + d⟩ := by
      unfold backend
      rw [hcg]
      simp only [processGet, hhit, hcoin, Bool.false_eq_true, if_false]
    rw [hrun]
    exact ⟨rfl, fun _ => ⟨rfl, rfl, rfl⟩, fun hh => Bool.noConfusion hh⟩
  | true =>
    by_cases ht : 0 < cache.ttl (t0 + w + d) key
    · cases hedb : o.extDbGet with
      | timeout =>
        have hrun : backend p cache db key t0 o =
            ⟨some v, 1, 0, [⟨t0, "cache_hit;cache_ttl_ext", t0 + w + d - t0, key⟩],
              cache, 1, t0 + w + d + p.dbTimeout⟩ := by
          unfold backend
          rw [hcg]
          simp only [processGet, hhit, hcoin, hedb, eq_self_iff_true, if_true, if_pos ht]
        rw [hrun]
        refine ⟨rfl, fun hh => Bool.noConfusion hh, fun _ =>
          ⟨rfl, fun hle => absurd ht (not_lt.mpr hle), fun _ => ⟨rfl, ?_, fun _ => rfl, ?_⟩⟩⟩
        · intro w2 d2 w3 d3 hg hc
          exact Admit.noConfusion hg
        · intro w2 d2 hg hc
          exact Admit.noConfusion hg
      | granted w2 d2 =>
        cases hecs : o.extCacheSet with
        | timeout =>
          have hrun : backend p cache db key t0 o =
              ⟨some v, 1, 0, [⟨t0, "cache_hit;cache_ttl_ext", t0 + w + d - t0, key⟩],
                cache, 1, t0 + w + d + w2 + d2 + p.cacheTimeout⟩ := by
            unfold backend
            rw [hcg]
            simp only [processGet, processSet, hhit, hcoin, hedb, hecs, eq_self_iff_true,
              if_true, if_pos ht]
          rw [hrun]
          refine ⟨rfl, fun hh => Bool.noConfusion hh, fun _ =>
            ⟨rfl, fun hle => absurd ht (not_lt.mpr hle), fun _ =>
              ⟨rfl, ?_, fun hg => Admit.noConfusion hg, fun w2a d2a hg hc => rfl⟩⟩⟩
          intro w2a d2a w3a d3a hg hc
          exact Admit.noConfusion hc
        | granted w3 d3 =>
          have hrun : backend p cache db key t0 o =
              ⟨some v, 1, 0, [⟨t0, "cache_hit;cache_ttl_ext", t0 + w + d - t0, key⟩],
                cache.set (t0 + w + d + w2 + d2 + w3 + d3) key
                  (db.get (t0 + w + d + w2 + d2) key) p.keyCacheTtl,
                1, t0 + w + d + w2 + d2 + w3 + d3⟩ := by
            unfold backend
            rw [hcg]
            simp only [processGet, processSet, hhit, hcoin, hedb, hecs, eq_self_iff_true,
              if_true, if_pos ht]
          rw [hrun]
          refine ⟨rfl, fun hh => Bool.noConfusion hh, fun _ =>
            ⟨rfl, fun hle => absurd ht (not_lt.mpr hle), fun _ =>
              ⟨rfl, ?_, fun hg => Admit.noConfusion hg, fun w2a d2a hg hc => Admit.noConfusion hc⟩⟩⟩
          intro w2a d2a w3a d3a hg hc
          injection hg with hg1 hg2
          injection hc with hc1 hc2
          subst hg1
          subst hg2
          subst hc1
          subst hc2
          rfl
    · have hrun : backend p cache db key t0 o =
          ⟨some v, 1, 0, [⟨t0, "cache_hit;cache_ttl_ext", t0 + w + d - t0, key⟩],
            cache, 0, t0 + w + d⟩ := by
        unfold backend
        rw [hcg]
        simp only [processGet, hhit, hcoin, eq_self_iff_true, if_true, if_neg ht]
      rw [hrun]
      exact ⟨rfl, fun hh => Bool.noConfusion hh, fun _ =>
        ⟨rfl, fun _ => ⟨rfl, rfl⟩, fun h0 => absurd h0 ht⟩⟩

/-- Witness for C7: an admitted hit with the extension coin false. -/
theorem ttlExt_hit_behavior_witness :
    (backend ⟨100, 1000, 1000⟩ ((Store.empty : Store Nat).set 0 0 (some 7) 10)
        Store.empty 0 0
        ⟨Admit.granted 0 1, false, Admit.timeout, Admit.timeout, Admit.timeout,
          Admit.timeout⟩).ret = some 7 :=
  (ttlExt_hit_behavior Nat ⟨100, 1000, 1000⟩ ((Store.empty : Store Nat).set 0 0 (some 7) 10)
    Store.empty 0 0
    ⟨Admit.granted 0 1, false, Admit.timeout, Admit.timeout, Admit.timeout, Admit.timeout⟩
    0 1 7 rfl (by norm_num [Store.get, Store.set, Store.empty])).1

/-- C7 counterexample: an admitted hit with the extension coin, remaining TTL
9 (positive) and a successful database re-read, whose cache write-back
admission times out: the database read succeeded, yet the cache entry keeps
its old expiration timestamp 10 and is not rewritten with the fresh TTL 1000
(a rewrite at any nonnegative time t of the run would have left expiration
t + 1000, never 10). -/
theorem ttlExt_writeback_timeout_cex :
    (backend ⟨100, 1000, 1000⟩ ((Store.empty : Store Nat).set 0 0 (some 7) 10)
        ((Store.empty : Store Nat).set 0 0 (some 7) 50000) 0 0
        ⟨Admit.granted 0 1, true, Admit.granted 0 1, Admit.timeout, Admit.timeout,
          Admit.timeout⟩).ret = some 7 ∧
    (backend ⟨100, 1000, 1000⟩ ((Store.empty : Store Nat).set 0 0 (some 7) 10)
        ((Store.empty : Store Nat).set 0 0 (some 7) 50000) 0 0
        ⟨Admit.granted 0 1, true, Admit.granted 0 1, Admit.timeout, Admit.timeout,
          Admit.timeout⟩).dbReads = 1 ∧
    (backend ⟨100, 1000, 1000⟩ ((Store.empty : Store Nat).set 0 0 (some 7) 10)
        ((Store.empty : Store Nat).set 0 0 (some 7) 50000) 0 0
        ⟨Admit.granted 0 1, true, Admit.granted 0 1, Admit.timeout, Admit.timeout,
          Admit.timeout⟩).cache.expires_at 0 = some 10 ∧
    (∀ t : ℚ, 0 ≤ t → some (10 : ℚ) ≠ some (t + 1000)) := by
  have hhit : ((Store.empty : Store Nat).set 0 0 (some 7) 10).get (0 + 0 + 1) 0 =
      some 7 := by
    norm_num [Store.get, Store.set, Store.empty]
  have ht : (0:ℤ) < ((Store.empty : Store Nat).set 0 0 (some 7) 10).ttl (0 + 0 + 1) 0 := by
    have : ((Store.empty : Store Nat).set 0 0 (some 7) 10).ttl (0 + 0 + 1) 0 =
        ⌈(0 + 10 : ℚ) - (0 + 0 + 1)⌉ := by
      norm_num [Store.ttl, Store.set, Store.empty]
    rw [this]
    exact Int.ceil_pos.mpr (by norm_num)
  constructor
  · unfold backend
    simp only [processGet, hhit, if_true, if_pos ht]
  constructor
  · unfold backend
    simp only [processGet, hhit, if_true, if_pos ht]
  constructor
  · unfold backend
    simp only [processGet, hhit, if_true, if_pos ht, processSet]
    norm_num [Store.set]
  · intro t htt hc
    rw [Option.some_inj] at hc
    linarith

theorem backend_nonhit_tags (p : Params) (c db : Store V) (key : Nat) (t0 : SimTime)
    (o : Oracle) (h : ∀ t, c.get t key = none) :
    (backend p c db key t0 o).rows.map Row.tag = ["cache_fail"] ∨
    (backend p c db key t0 o).rows.map Row.tag = ["cache_miss;db_fail"] ∨
    (backend p c db key t0 o).rows.map Row.tag = ["cache_miss;db_ok"] := by
  unfold backend
  cases hcg : o.cacheGet with
  | timeout => exact Or.inl rfl
  | granted w d =>
    simp only [processGet, h]
    cases hdb : o.dbGet with
    | timeout => exact Or.inr (Or.inl rfl)
    | granted w2 d2 =>
      cases hcs : o.cacheSet with
      | timeout => exact Or.inr (Or.inr rfl)
      | granted w3 d3 => exact Or.inr (Or.inr rfl)

/-- C10: for a key absent from the database (never in its values dict), an
admitted cache-miss request: the database read is Success None rather than an
error, so the run ends as one cache_miss with db_ok row with ok incremented
and None returned; the admitted write-back stores the absent marker None in
the cache values dict; every later cache get of the key returns absent; and
any later backend run against that cache records cache_fail, cache_miss with
db_fail or cache_miss with db_ok, never a hit tag. -/
theorem absent_db_writeback_none (V : Type) (p : Params) (cache db : Store V) (key : Nat)
    (t0 : SimTime) (o : Oracle) (w d w2 d2 w3 d3 : ℚ)
    (hdbv : db.values key = none)
    (hcg : o.cacheGet = Admit.granted w d)
    (hmiss : cache.get (t0 + w + d) key = none)
    (hdb : o.dbGet = Admit.granted w2 d2)
    (hcs : o.cacheSet = Admit.granted w3 d3) :
    (backend p cache db key t0 o).rows.map Row.tag = ["cache_miss;db_ok"] ∧
    (backend p cache db key t0 o).okInc = 1 ∧
    (backend p cache db key t0 o).failsInc = 0 ∧
    (backend p cache db key t0 o).ret = none ∧
    (backend p cache db key t0 o).cache.values key = some none ∧
    (∀ t, (backend p cache db key t0 o).cache.get t key = none) ∧
    (∀ (o2 : Oracle) (t1 : SimTime),
      (backend p (backend p cache db key t0 o).cache db key t1 o2).rows.map Row.tag =
          ["cache_fail"] ∨
      (backend p (backend p cache db key t0 o).cache db key t1 o2).rows.map Row.tag =
          ["cache_miss;db_fail"] ∨
      (backend p (backend p cache db key t0 o).cache db key t1 o2).rows.map Row.tag =
          ["cache_miss;db_ok"]) := by
  have hdbget : ∀ t, db.get t key = none := fun t => Store.get_of_values_none db t key hdbv
  have hrun : backend p cache db key t0 o =
      ⟨none, 1, 0, [⟨t0, "cache_miss;db_ok", t0 + w + d + w2 + d2 + w3 + d3 - t0, key⟩],
        cache.set (t0 + w + d + w2 + d2 + w3 + d3) key none p.keyCacheTtl, 1,
        t0 + w + d + w2 + d2 + w3 + d3⟩ := by
    unfold backend
    rw [hcg, hdb, hcs]
    simp only [processGet, processSet, hmiss, hdbget]
  rw [hrun]
  have hval : (cache.set (t0 + w + d + w2 + d2 + w3 + d3) key none p.keyCacheTtl).values key
      = some none := by simp [Store.set]
  have hget : ∀ t,
      (cache.set (t0 + w + d + w2 + d2 + w3 + d3) key none p.keyCacheTtl).get t key = none :=
    fun t => Store.get_of_values_some_none _ t key hval
  exact ⟨rfl, rfl, rfl, rfl, hval, hget,
    fun o2 t1 => backend_nonhit_tags p _ db key t1 o2 hget⟩

/-- Witness for C10: a concrete admitted miss for key 9, absent from the
empty database, with the write-back admitted. -/
theorem absent_db_writeback_none_witness :
    (backend ⟨100, 1000, 777⟩ (Store.empty : Store Nat) Store.empty 9 0
        ⟨Admit.granted 1 2, false, Admit.timeout, Admit.timeout, Admit.granted 3 4,
          Admit.granted 5 6⟩).cache.values 9 = some none :=
  (absent_db_writeback_none Nat ⟨100, 1000, 777⟩ Store.empty Store.empty 9 0
    ⟨Admit.granted 1 2, false, Admit.timeout, Admit.timeout, Admit.granted 3 4,
      Admit.granted 5 6⟩ 1 2 3 4 5 6 rfl rfl rfl rfl rfl).2.2.2.2.1

end CacheStudy
